import Mathlib

/-!
# Verification of `us-ssn-tools`

Shallow embedding of the SSN validation / normalization / masking / generation
library.  Strings are modelled as `List Char`; JavaScript numbers arising from
`Number(...)` on digit strings are modelled as `Nat`; the injectable random
generator (floats in `[0, 1)`) is modelled as a stream of rationals.

Sources embedded:
- `src/utils.ts` (`formatSsnFromDigits`, `formatSsnWithOverflow`)
- `src/normalize.ts` (`normalizeSsn` and its digit-extraction loop)
- `src/validate.ts` (`isValidSsn`, `isValidArea`, `parseSsnInput`)
- the structured validator variant (`validateSsn`, `validateFullSegments`,
  `validatePartialSegments`, `normalizePrefix` — the last renamed
  `normalizePrefixOf` here)
- the masker variant built on `normalizeSsn` (`maskSsn`)
- `src/generate.ts` (`generateSsn`, `generateArea`,
  `generateNonZeroFixedWidth`, `randomInt`), with explicit fuel for the two
  retry loops, which the source leaves unbounded.
-/

set_option autoImplicit false

/-- The character test `ch >= '0' && ch <= '9'` used throughout the source,
expressed on character codes (`'0'` = 48, `'9'` = 57). -/
def isDigitChar (c : Char) : Bool := 48 ≤ c.toNat && c.toNat ≤ 57

/-- JavaScript `Number(...)` on a digit string: the decimal value. -/
def digitsToNat (l : List Char) : Nat :=
  l.foldl (fun n c => n * 10 + (c.toNat - 48)) 0

/-- `utils.ts` `formatSsnFromDigits`: pure dash insertion for UI display. -/
def formatSsnFromDigits (digits : List Char) : List Char :=
  if digits.length ≤ 3 then digits
  else if digits.length ≤ 5 then digits.take 3 ++ '-' :: digits.drop 3
  else digits.take 3 ++ '-' :: ((digits.drop 3).take 2 ++ '-' :: digits.drop 5)

/-- `utils.ts` `formatSsnWithOverflow`: dash-format the first 9 digits and
append any overflow verbatim. -/
def formatSsnWithOverflow (digits : List Char) : List Char :=
  if digits.length ≤ 9 then formatSsnFromDigits digits
  else formatSsnFromDigits (digits.take 9) ++ digits.drop 9

/-- The digit-extraction loop of `normalize.ts` `normalizeSsn`, with the
running digit count made explicit (`break` once 9 digits are collected when
`enforceLength`). -/
def extractLoop (enforceLength : Bool) : List Char → Nat → List Char
  | [], _ => []
  | c :: rest, count =>
    if isDigitChar c = true then
      if enforceLength = true ∧ count + 1 = 9 then [c]
      else c :: extractLoop enforceLength rest (count + 1)
    else extractLoop enforceLength rest count

/-- Digit extraction as performed by `normalizeSsn` (spec §4.4: extract every
decimal digit in order, optionally capping at 9). -/
def extractDigits (enforceLength : Bool) (input : List Char) : List Char :=
  extractLoop enforceLength input 0

/-- Options of `normalize.ts` `normalizeSsn`, with the source defaults. -/
structure NormalizeSsnOptions where
  allowPartial : Bool := true
  digitsOnly : Bool := false
  enforceLength : Bool := true

/-- `normalize.ts` `normalizeSsn`: best-effort normalization for UI display. -/
def normalizeSsn (input : List Char) (opts : NormalizeSsnOptions) : List Char :=
  let digits := extractDigits opts.enforceLength input
  if opts.digitsOnly = true then digits
  else if opts.allowPartial = true then formatSsnWithOverflow digits
  else if digits.length = 9 ∨ (opts.enforceLength = true ∧ digits.length = 9) then
    formatSsnFromDigits (digits.take 9)
  else input

/-! ## Basic lemmas about digits and formatting -/

theorem isDigitChar_dash : isDigitChar '-' = false := by decide

theorem bne_dash_of_digit {c : Char} (h : isDigitChar c = true) : (c != '-') = true := by
  have hne : c ≠ '-' := by
    intro hc
    rw [hc, isDigitChar_dash] at h
    exact Bool.false_ne_true h
  simpa using hne

theorem toNat_bounds_of_digit {c : Char} (h : isDigitChar c = true) :
    48 ≤ c.toNat ∧ c.toNat ≤ 57 := by
  rcases Bool.and_eq_true _ _ |>.mp h with ⟨h1, h2⟩
  exact ⟨of_decide_eq_true h1, of_decide_eq_true h2⟩

theorem filter_digit_eq_self {l : List Char} (h : l.all isDigitChar = true) :
    l.filter isDigitChar = l := by
  rw [List.filter_eq_self]
  intro c hc
  exact (List.all_eq_true.mp h) c hc

theorem extractLoop_false (l : List Char) : ∀ n, extractLoop false l n = l.filter isDigitChar := by
  induction l with
  | nil => intro n; rfl
  | cons c rest ih =>
    intro n
    by_cases hc : isDigitChar c = true
    · simp [extractLoop, hc, List.filter_cons, ih]
    · have hc' : isDigitChar c = false := by simpa using hc
      simp [extractLoop, hc, List.filter_cons, ih n, hc']

theorem extractLoop_true (l : List Char) :
    ∀ n, n ≤ 8 → extractLoop true l n = (l.filter isDigitChar).take (9 - n) := by
  induction l with
  | nil => intro n _; simp [extractLoop]
  | cons c rest ih =>
    intro n hn
    by_cases hc : isDigitChar c = true
    · by_cases h9 : n + 1 = 9
      · have : 9 - n = 1 := by omega
        simp [extractLoop, hc, h9, List.filter_cons, this]
      · have h8 : n + 1 ≤ 8 := by omega
        have : 9 - n = (9 - (n + 1)) + 1 := by omega
        simp [extractLoop, hc, h9, List.filter_cons, ih (n + 1) h8, this]
    · have hc' : isDigitChar c = false := by simpa using hc
      simp [extractLoop, hc, List.filter_cons, ih n hn, hc']

theorem extractDigits_eq (enforceLength : Bool) (input : List Char) :
    extractDigits enforceLength input =
      if enforceLength = true then (input.filter isDigitChar).take 9
      else input.filter isDigitChar := by
  cases enforceLength with
  | false => simp [extractDigits, extractLoop_false]
  | true => simp [extractDigits, extractLoop_true input 0 (by omega)]

/-! ## `validate.ts`: `parseSsnInput`, `isValidArea`, `isValidSsn` -/

/-- The two rule modes of `validate.ts` (`'pre2011' | 'post2011'`). -/
inductive SsnRuleMode where
  | pre2011
  | post2011
deriving DecidableEq

/-- The three publicly advertised (denylisted) SSNs, in dashed form. -/
def PUBLICLY_ADVERTISED : List (List Char) :=
  [('0' :: '7' :: '8' :: '-' :: '0' :: '5' :: '-' :: '1' :: '1' :: '2' :: '0' :: []),
   ('7' :: '2' :: '1' :: '-' :: '0' :: '7' :: '-' :: '4' :: '4' :: '2' :: '6' :: []),
   ('2' :: '1' :: '9' :: '-' :: '0' :: '9' :: '-' :: '9' :: '9' :: '9' :: '9' :: [])]

/-- The regex `/^\d{3}-\d{2}-\d{4}$/` of `parseSsnInput`. -/
def matchesDashedFull (s : List Char) : Bool :=
  match s with
  | [a, b, c, d1, e, f, d2, g, h, i, j] =>
    isDigitChar a && isDigitChar b && isDigitChar c && (d1 == '-') &&
    isDigitChar e && isDigitChar f && (d2 == '-') &&
    isDigitChar g && isDigitChar h && isDigitChar i && isDigitChar j
  | _ => false

/-- The regex `/^\d{9}$/` of `parseSsnInput`. -/
def matchesDigits9 (s : List Char) : Bool :=
  s.length == 9 && s.all isDigitChar

/-- The regex `/^[0-9-]*$/` guarding the typing-mode loops of `parseSsnInput`. -/
def validCharsOnly (s : List Char) : Bool :=
  s.all (fun c => isDigitChar c || c == '-')

/-- The typing-mode scanning loop of `parseSsnInput`: accumulate digits,
accepting a dash only right after 3 digits (once) or right after 5 digits
(once), and at most 9 digits. -/
def dashScan : List Char → List Char → Bool → Bool → Option (List Char × Bool × Bool)
  | [], digits, saw3, saw5 => some (digits, saw3, saw5)
  | c :: rest, digits, saw3, saw5 =>
    if isDigitChar c = true then
      if 9 ≤ digits.length then none
      else dashScan rest (digits ++ [c]) saw3 saw5
    else if digits.length = 3 ∧ saw3 = false then dashScan rest digits true saw5
    else if digits.length = 5 ∧ saw5 = false then dashScan rest digits saw3 true
    else none

/-- `validate.ts` `parseSsnInput`: format/prefix checks plus digit
extraction (`none` models `{ok: false}`). -/
def parseSsnInput (input : List Char) (requireDashes allowPartial : Bool) :
    Option (List Char) :=
  if allowPartial = false then
    if matchesDashedFull input = true then some (input.filter (fun c => c != '-'))
    else if requireDashes = false ∧ matchesDigits9 input = true then some input
    else none
  else if requireDashes = true then
    if validCharsOnly input = false then none
    else
      match dashScan input [] false false with
      | none => none
      | some (digits, saw3, saw5) =>
        if 3 < digits.length ∧ saw3 = false then none
        else if 5 < digits.length ∧ saw5 = false then none
        else some digits
  else
    if validCharsOnly input = false then none
    else
      match dashScan input [] false false with
      | none => none
      | some (digits, _, _) => some digits

/-- `validate.ts` `isValidArea`: base rules plus the extra pre-2011 ranges. -/
def isValidArea (area : Nat) (ruleMode : SsnRuleMode) : Bool :=
  if area = 0 then false
  else if area = 666 then false
  else if 900 ≤ area then false
  else if ruleMode = SsnRuleMode.pre2011 then
    if 734 ≤ area ∧ area ≤ 749 then false
    else if 773 ≤ area then false
    else true
  else true

/-- The rule-checking section of `isValidSsn` (everything after the parse):
strict length requirement, then the progressive area / group / serial /
denylist checks, each firing only once its segment is present. -/
def ssnRuleChecks (digits : List Char) (ruleMode : SsnRuleMode) (allowPartial : Bool) : Bool :=
  if allowPartial = false ∧ digits.length ≠ 9 then false
  else if 3 ≤ digits.length ∧ isValidArea (digitsToNat (digits.take 3)) ruleMode = false then false
  else if 5 ≤ digits.length ∧ digitsToNat ((digits.drop 3).take 2) = 0 then false
  else if digits.length = 9 ∧
      (digitsToNat ((digits.drop 5).take 4) = 0 ∨
        (digits.take 3 ++ '-' :: ((digits.drop 3).take 2 ++ '-' :: digits.drop 5))
          ∈ PUBLICLY_ADVERTISED) then false
  else true

/-- `validate.ts` `isValidSsn`: parse, then rule checks. -/
def isValidSsn (input : List Char) (requireDashes : Bool) (ruleMode : SsnRuleMode)
    (allowPartial : Bool) : Bool :=
  match parseSsnInput input requireDashes allowPartial with
  | none => false
  | some digits => ssnRuleChecks digits ruleMode allowPartial

example : isValidSsn ("123-45-6789".toList) true SsnRuleMode.post2011 false = true := by decide
example : isValidSsn ("123456789".toList) false SsnRuleMode.post2011 false = true := by decide
example : isValidSsn ("123456789".toList) true SsnRuleMode.post2011 false = false := by decide
example : isValidSsn ("078-05-1120".toList) true SsnRuleMode.post2011 false = false := by decide
example : isValidSsn ("666-12-3456".toList) true SsnRuleMode.post2011 false = false := by decide
example : isValidSsn ("773-12-3456".toList) true SsnRuleMode.pre2011 false = false := by decide
example : isValidSsn ("773-12-3456".toList) true SsnRuleMode.post2011 false = true := by decide
example : isValidSsn ("9".toList) true SsnRuleMode.post2011 true = true := by decide
example : isValidSsn ("900".toList) true SsnRuleMode.post2011 true = false := by decide
example : isValidSsn ("123-4".toList) true SsnRuleMode.post2011 true = true := by decide
example : isValidSsn ("1234".toList) true SsnRuleMode.post2011 true = false := by decide
example : isValidSsn ("1234".toList) false SsnRuleMode.post2011 true = true := by decide
example : isValidSsn ("123-00".toList) true SsnRuleMode.post2011 true = false := by decide
example : isValidSsn ("123-45-0000".toList) true SsnRuleMode.post2011 true = false := by decide
example : isValidSsn ("078-05-1120".toList) true SsnRuleMode.post2011 true = false := by decide
example : isValidSsn ("078-05-112".toList) true SsnRuleMode.post2011 true = true := by decide

/-! ## Formatting lemmas and the idempotence property -/

theorem filter_formatSsnFromDigits (d : List Char) :
    (formatSsnFromDigits d).filter isDigitChar = d.filter isDigitChar := by
  unfold formatSsnFromDigits
  by_cases h3 : d.length ≤ 3
  · simp [h3]
  · by_cases h5 : d.length ≤ 5
    · simp only [h3, h5, if_false, if_true, List.filter_append, List.filter_cons,
        isDigitChar_dash, Bool.false_eq_true, if_neg]
      rw [← List.filter_append, List.take_append_drop]
    · simp only [h3, h5, if_false, List.filter_append, List.filter_cons,
        isDigitChar_dash, Bool.false_eq_true, if_neg]
      have hdrop : (d.drop 3).drop 2 = d.drop 5 := by
        rw [List.drop_drop]
      rw [← hdrop, ← List.filter_append, ← List.filter_append,
        List.take_append_drop, List.take_append_drop]

/-- C9: `formatDigits(extractDigits(formatDigits(d))) == formatDigits(d)` for
every digit string `d`, including strings longer than 9 digits (extraction
uncapped, i.e. `enforceLength = false`). -/
theorem formatDigits_extract_idempotent (d : List Char) (hd : d.all isDigitChar = true) :
    formatSsnFromDigits (extractDigits false (formatSsnFromDigits d)) = formatSsnFromDigits d := by
  have he : extractDigits false (formatSsnFromDigits d) = d := by
    rw [extractDigits_eq]
    simp only [Bool.false_eq_true, if_neg, if_false]
    rw [filter_formatSsnFromDigits, filter_digit_eq_self hd]
  rw [he]

/-- Witness for C9 at the 10-digit string "1234567890". -/
theorem formatDigits_extract_idempotent_witness :
    formatSsnFromDigits (extractDigits false (formatSsnFromDigits ("1234567890".toList))) =
      formatSsnFromDigits ("1234567890".toList) :=
  formatDigits_extract_idempotent ("1234567890".toList) (by decide)

/-! ## The masker built on `normalizeSsn` -/

/-- Options of the `maskSsn` variant built on `normalizeSsn`, with the source
defaults.  `maskChar` is a string in the source; only its first character is
used, with `'*'` as fallback. -/
structure MaskSsnOptions where
  allowPartial : Bool := true
  revealLast4 : Bool := false
  maskChar : List Char := ['*']
  digitsOnly : Bool := false
  enforceLength : Bool := false

/-- `(opts.maskChar ?? '*').slice(0, 1) || '*'`. -/
def effMaskChar (mc : List Char) : Char :=
  match mc with
  | [] => '*'
  | c :: _ => c

/-- Step 1 of `maskSsn`: normalize the input to digits only. -/
def maskExtracted (input : List Char) (opts : MaskSsnOptions) : List Char :=
  normalizeSsn input
    { allowPartial := opts.allowPartial, digitsOnly := true,
      enforceLength := opts.enforceLength }

/-- `revealCount = revealLast4 ? min(4, serialTyped) : 0` where
`serialTyped = max(0, total - 5)` (truncated subtraction). -/
def revealCountOf (input : List Char) (opts : MaskSsnOptions) : Nat :=
  if opts.revealLast4 then min 4 ((maskExtracted input opts).length - 5) else 0

/-- `maskedCount = max(0, total - revealCount)`. -/
def maskedCountOf (input : List Char) (opts : MaskSsnOptions) : Nat :=
  (maskExtracted input opts).length - revealCountOf input opts

/-- The `maskSsn` variant built on `normalizeSsn`: extract digits, replace the
first `maskedCount` of them by the mask character, then format. -/
def maskSsn (input : List Char) (opts : MaskSsnOptions) : List Char :=
  let digits := maskExtracted input opts
  let maskedDigits :=
    List.replicate (maskedCountOf input opts) (effMaskChar opts.maskChar) ++
      digits.drop (maskedCountOf input opts)
  if opts.digitsOnly = true then maskedDigits else formatSsnWithOverflow maskedDigits

example : maskSsn ("123-45-6789".toList) {} = "***-**-****".toList := by decide
example : maskSsn ("123456789".toList) {} = "***-**-****".toList := by decide
example : maskSsn ("1234".toList) {} = "***-*".toList := by decide
example : maskSsn ("SSN: 12a3-4".toList) {} = "***-*".toList := by decide
example : maskSsn ("123-45-6789".toList) { digitsOnly := true } = "*********".toList := by decide
example : maskSsn ("123-45-6789".toList) { maskChar := "***".toList } = "***-**-****".toList := by decide
example : maskSsn ("123-45-6789".toList) { maskChar := [] } = "***-**-****".toList := by decide
example : maskSsn ("12345".toList) { revealLast4 := true } = "***-**".toList := by decide
example : maskSsn ("123456".toList) { revealLast4 := true } = "***-**-6".toList := by decide
example : maskSsn ("123456789".toList) { revealLast4 := true } = "***-**-6789".toList := by decide
example : maskSsn ("123456".toList) { digitsOnly := true, revealLast4 := true } = "*****6".toList := by decide
example : maskSsn ("1234".toList) { allowPartial := false } = "***-*".toList := by decide
example : maskSsn ("1234567890".toList) {} = "***-**-*****".toList := by decide
example : maskSsn ("12345678999".toList) { enforceLength := true } = "***-**-****".toList := by decide
example : maskSsn ("12345678999".toList) { enforceLength := true, revealLast4 := true } = "***-**-6789".toList := by decide
example : maskSsn ("abc".toList) {} = "".toList := by decide

/-! ## Masking properties (C3, C10) -/

/-- The reveal property claimed for `maskSsn`: every digit position kept
literal (0-based index at or beyond the masked count) lies in the Serial
segment, i.e. 0-based indices 5–8 (digit positions 6–9 counting from 1). -/
def maskRevealsOnlySerial (input : List Char) (opts : MaskSsnOptions) : Prop :=
  ∀ i, maskedCountOf input opts ≤ i → i < (maskExtracted input opts).length →
    5 ≤ i ∧ i ≤ 8

theorem mem_formatSsnFromDigits {c : Char} {l : List Char}
    (h : c ∈ formatSsnFromDigits l) : c ∈ l ∨ c = '-' := by
  unfold formatSsnFromDigits at h
  by_cases h3 : l.length ≤ 3
  · rw [if_pos h3] at h
    exact Or.inl h
  · by_cases h5 : l.length ≤ 5
    · rw [if_neg h3, if_pos h5] at h
      rcases List.mem_append.mp h with h' | h'
      · exact Or.inl (List.take_subset _ _ h')
      · rcases List.mem_cons.mp h' with h'' | h''
        · exact Or.inr h''
        · exact Or.inl (List.drop_subset _ _ h'')
    · rw [if_neg h3, if_neg h5] at h
      rcases List.mem_append.mp h with h' | h'
      · exact Or.inl (List.take_subset _ _ h')
      · rcases List.mem_cons.mp h' with h'' | h''
        · exact Or.inr h''
        · rcases List.mem_append.mp h'' with h3' | h3'
          · exact Or.inl (List.drop_subset _ _ (List.take_subset _ _ h3'))
          · rcases List.mem_cons.mp h3' with h4 | h4
            · exact Or.inr h4
            · exact Or.inl (List.drop_subset _ _ h4)

theorem mem_formatSsnWithOverflow {c : Char} {l : List Char}
    (h : c ∈ formatSsnWithOverflow l) : c ∈ l ∨ c = '-' := by
  unfold formatSsnWithOverflow at h
  by_cases h9 : l.length ≤ 9
  · rw [if_pos h9] at h
    exact mem_formatSsnFromDigits h
  · rw [if_neg h9] at h
    rcases List.mem_append.mp h with h' | h'
    · rcases mem_formatSsnFromDigits h' with h'' | h''
      · exact Or.inl (List.take_subset _ _ h'')
      · exact Or.inr h''
    · exact Or.inl (List.drop_subset _ _ h')

/-- C3 (amended): with `revealLast4 = false` every character of the mask output
is the mask character or a dash (every extracted digit is replaced); with
`revealLast4 = true`, whenever at most 9 digits are extracted (in particular
always when `enforceLength` is set) the digits kept literal all lie in the
Serial segment, digit positions 6–9.  (With more than 9 extracted digits —
`enforceLength = false` — overflow digits beyond position 9 can be revealed,
which is what refutes the original claim.) -/
theorem maskSsn_reveal_policy (input : List Char) (opts : MaskSsnOptions) :
    (opts.revealLast4 = false →
      ∀ c ∈ maskSsn input opts, c = effMaskChar opts.maskChar ∨ c = '-')
    ∧ (opts.revealLast4 = true → (maskExtracted input opts).length ≤ 9 →
        maskRevealsOnlySerial input opts) := by
  constructor
  · intro hrl c hc
    have h0 : revealCountOf input opts = 0 := by
      simp [revealCountOf, hrl]
    have hm : maskedCountOf input opts = (maskExtracted input opts).length := by
      simp [maskedCountOf, h0]
    rw [maskSsn, hm, List.drop_length, List.append_nil] at hc
    by_cases hdo : opts.digitsOnly = true
    · rw [if_pos hdo] at hc
      exact Or.inl (List.eq_of_mem_replicate hc)
    · rw [if_neg hdo] at hc
      rcases mem_formatSsnWithOverflow hc with h' | h'
      · exact Or.inl (List.eq_of_mem_replicate h')
      · exact Or.inr h'
  · intro hrl hlen i h1 h2
    rw [maskedCountOf, revealCountOf, if_pos hrl] at h1
    omega

/-- Counterexample for C3 as stated: on the 11-digit input "12345678999" with
`revealLast4 = true` (defaults otherwise, so `enforceLength = false`), the
revealed digits are the last four typed, which sit at normalized digit
positions 8–11 — positions 10 and 11 are beyond the Serial segment.  The
second conjunct shows the concrete output: the trailing "99" of the input is
kept literal. -/
theorem maskSsn_reveal_counterexample :
    ¬ maskRevealsOnlySerial ("12345678999".toList) { revealLast4 := true } ∧
    maskSsn ("12345678999".toList) { revealLast4 := true } = "***-**-**8999".toList := by
  constructor
  · intro h
    have h9 := h 9 (by decide) (by decide)
    omega
  · decide

/-- Witness for C3 (amended), at a full dashed SSN with defaults (first
conjunct) and at a 6-digit partial input with `revealLast4` (second). -/
theorem maskSsn_reveal_policy_witness :
    (∀ c ∈ maskSsn ("123-45-6789".toList) ({} : MaskSsnOptions),
      c = effMaskChar ({} : MaskSsnOptions).maskChar ∨ c = '-')
    ∧ maskRevealsOnlySerial ("123456".toList) { revealLast4 := true } :=
  ⟨(maskSsn_reveal_policy ("123-45-6789".toList) {}).1 rfl,
   (maskSsn_reveal_policy ("123456".toList) { revealLast4 := true }).2 rfl (by decide)⟩

/-- C10: for the `maskSsn` variant built on `normalizeSsn`, with
`revealLast4 = false`, the output depends only on the number of decimal digit
characters in the input: two inputs with the same digit count mask to the
identical string under any fixed setting of the other options. -/
theorem maskSsn_depends_only_on_digit_count (s t : List Char) (opts : MaskSsnOptions)
    (hrl : opts.revealLast4 = false)
    (hcount : (s.filter isDigitChar).length = (t.filter isDigitChar).length) :
    maskSsn s opts = maskSsn t opts := by
  have hes : maskExtracted s opts = extractDigits opts.enforceLength s := by
    simp [maskExtracted, normalizeSsn]
  have het : maskExtracted t opts = extractDigits opts.enforceLength t := by
    simp [maskExtracted, normalizeSsn]
  have hlen : (maskExtracted s opts).length = (maskExtracted t opts).length := by
    rw [hes, het, extractDigits_eq, extractDigits_eq]
    cases opts.enforceLength <;> simp [hcount]
  have h0s : revealCountOf s opts = 0 := by simp [revealCountOf, hrl]
  have h0t : revealCountOf t opts = 0 := by simp [revealCountOf, hrl]
  have hms : maskedCountOf s opts = (maskExtracted s opts).length := by
    simp [maskedCountOf, h0s]
  have hmt : maskedCountOf t opts = (maskExtracted t opts).length := by
    simp [maskedCountOf, h0t]
  rw [maskSsn, maskSsn, hms, hmt, List.drop_length, List.drop_length, hlen]

/-- Witness for C10: "1x2x3x4x5" and "54321" both contain five digits and mask
identically under the default options. -/
theorem maskSsn_depends_only_on_digit_count_witness :
    maskSsn ("1x2x3x4x5".toList) ({} : MaskSsnOptions) =
      maskSsn ("54321".toList) ({} : MaskSsnOptions) :=
  maskSsn_depends_only_on_digit_count ("1x2x3x4x5".toList) ("54321".toList) {} rfl (by decide)

/-! ## Scanning lemmas for the typing-mode parser -/

theorem dashScan_append (xs ys : List Char) :
    ∀ d s3 s5, dashScan (xs ++ ys) d s3 s5 =
      (dashScan xs d s3 s5).bind (fun t => dashScan ys t.1 t.2.1 t.2.2) := by
  induction xs with
  | nil => intro d s3 s5; rfl
  | cons c rest ih =>
    intro d s3 s5
    simp only [List.cons_append, dashScan, List.append_eq]
    by_cases hc : isDigitChar c = true
    · rw [if_pos hc, if_pos hc]
      by_cases h9 : 9 ≤ d.length
      · rw [if_pos h9, if_pos h9]
        rfl
      · rw [if_neg h9, if_neg h9, ih]
    · rw [if_neg hc, if_neg hc]
      by_cases h3 : d.length = 3 ∧ s3 = false
      · rw [if_pos h3, if_pos h3, ih]
      · rw [if_neg h3, if_neg h3]
        by_cases h5 : d.length = 5 ∧ s5 = false
        · rw [if_pos h5, if_pos h5, ih]
        · rw [if_neg h5, if_neg h5]
          rfl

theorem dashScan_state : ∀ (ys d : List Char) (s3 s5 : Bool) (d' : List Char) (s3' s5' : Bool),
    dashScan ys d s3 s5 = some (d', s3', s5') →
    (∃ e, d' = d ++ e) ∧ (3 < d.length → s3' = s3) ∧ (5 < d.length → s5' = s5) := by
  intro ys
  induction ys with
  | nil =>
    intro d s3 s5 d' s3' s5' h
    simp only [dashScan, Option.some.injEq, Prod.mk.injEq] at h
    obtain ⟨rfl, rfl, rfl⟩ := h
    exact ⟨⟨[], (List.append_nil d).symm⟩, fun _ => rfl, fun _ => rfl⟩
  | cons c rest ih =>
    intro d s3 s5 d' s3' s5' h
    rw [dashScan] at h
    by_cases hc : isDigitChar c = true
    · rw [if_pos hc] at h
      by_cases h9 : 9 ≤ d.length
      · rw [if_pos h9] at h
        exact absurd h (by simp)
      · rw [if_neg h9] at h
        obtain ⟨⟨e, he⟩, hs3, hs5⟩ := ih (d ++ [c]) s3 s5 d' s3' s5' h
        refine ⟨⟨c :: e, by simpa using he⟩, ?_, ?_⟩
        · intro hgt
          exact hs3 (by simp; omega)
        · intro hgt
          exact hs5 (by simp; omega)
    · rw [if_neg hc] at h
      by_cases h3 : d.length = 3 ∧ s3 = false
      · rw [if_pos h3] at h
        obtain ⟨he, hs3, hs5⟩ := ih d true s5 d' s3' s5' h
        refine ⟨he, ?_, ?_⟩
        · intro hgt
          exact absurd h3.1 (by omega)
        · intro hgt
          exact hs5 hgt
      · rw [if_neg h3] at h
        by_cases h5 : d.length = 5 ∧ s5 = false
        · rw [if_pos h5] at h
          obtain ⟨he, hs3, hs5⟩ := ih d s3 true d' s3' s5' h
          refine ⟨he, ?_, ?_⟩
          · intro hgt
            exact hs3 hgt
          · intro hgt
            exact absurd h5.1 (by omega)
        · rw [if_neg h5] at h
          exact absurd h (by simp)

theorem dashScan_full : ∀ (ys d : List Char) (s3 s5 : Bool) (t : List Char × Bool × Bool),
    d.length = 9 → dashScan ys d s3 s5 = some t → ys = [] := by
  intro ys d s3 s5 t h9 h
  cases ys with
  | nil => rfl
  | cons c rest =>
    rw [dashScan] at h
    by_cases hc : isDigitChar c = true
    · rw [if_pos hc, if_pos (by omega : 9 ≤ d.length)] at h
      exact absurd h (by simp)
    · rw [if_neg hc, if_neg (by rintro ⟨h3, -⟩; omega),
        if_neg (by rintro ⟨h5, -⟩; omega)] at h
      exact absurd h (by simp)

theorem dashScan_nine_nil {s d : List Char} {s3 s5 s3' s5' : Bool} {e : List Char}
    (h9 : d.length = 9) (h : dashScan s d s3 s5 = some (d ++ e, s3', s5')) : e = [] := by
  have hs := dashScan_full s d s3 s5 _ h9 h
  subst hs
  simp only [dashScan, Option.some.injEq, Prod.mk.injEq] at h
  have hlen := congrArg List.length h.1
  simp only [List.length_append] at hlen
  exact List.length_eq_zero.mp (by omega)

theorem take_append_of_le {α : Type} (d e : List α) (n : Nat) (h : n ≤ d.length) :
    (d ++ e).take n = d.take n := by
  rw [List.take_append_eq_append_take]
  simp [Nat.sub_eq_zero_of_le h]

theorem drop_append_of_le {α : Type} (d e : List α) (n : Nat) (h : n ≤ d.length) :
    (d ++ e).drop n = d.drop n ++ e := by
  rw [List.drop_append_eq_append_drop]
  simp [Nat.sub_eq_zero_of_le h]

/-- The progressive rule checks are stable under appending digits, as long as
appending is impossible once all 9 digits are present (ensured by the parser). -/
theorem ruleChecks_mono (d e : List Char) (rm : SsnRuleMode)
    (hnine : d.length = 9 → e = [])
    (h : ssnRuleChecks d rm true = false) :
    ssnRuleChecks (d ++ e) rm true = false := by
  have hfirst : ¬((true : Bool) = false ∧ (d ++ e).length ≠ 9) := by
    rintro ⟨hcon, -⟩
    exact Bool.false_ne_true hcon.symm
  by_cases hA : 3 ≤ d.length ∧ isValidArea (digitsToNat (d.take 3)) rm = false
  · have ht : (d ++ e).take 3 = d.take 3 := take_append_of_le d e 3 hA.1
    rw [ssnRuleChecks, if_neg hfirst,
      if_pos ⟨by simp; omega, by rw [ht]; exact hA.2⟩]
  · by_cases hG : 5 ≤ d.length ∧ digitsToNat ((d.drop 3).take 2) = 0
    · have h35 : (3 : Nat) ≤ d.length := by omega
      have ht : (d ++ e).take 3 = d.take 3 := take_append_of_le d e 3 h35
      have hd3 : (d ++ e).drop 3 = d.drop 3 ++ e := drop_append_of_le d e 3 h35
      have hg : ((d ++ e).drop 3).take 2 = (d.drop 3).take 2 := by
        rw [hd3, take_append_of_le _ _ 2 (by simp [List.length_drop]; omega)]
      have hAok : ¬(3 ≤ (d ++ e).length ∧
          isValidArea (digitsToNat ((d ++ e).take 3)) rm = false) := by
        rintro ⟨-, hbad⟩
        rw [ht] at hbad
        exact hA ⟨h35, hbad⟩
      rw [ssnRuleChecks, if_neg hfirst, if_neg hAok,
        if_pos ⟨by simp; omega, by rw [hg]; exact hG.2⟩]
    · by_cases hS : d.length = 9 ∧
        (digitsToNat ((d.drop 5).take 4) = 0 ∨
          (d.take 3 ++ '-' :: ((d.drop 3).take 2 ++ '-' :: d.drop 5))
            ∈ PUBLICLY_ADVERTISED)
      · rw [hnine hS.1, List.append_nil]
        exact h
      · exfalso
        rw [ssnRuleChecks] at h
        rw [if_neg (by rintro ⟨hcon, -⟩; exact Bool.false_ne_true hcon.symm),
          if_neg hA, if_neg hG, if_neg hS] at h
        exact Bool.false_ne_true h.symm

/-! ## Characterizations of `parseSsnInput` in typing mode -/

theorem parse_typing_invalidChars {input : List Char}
    (h : validCharsOnly input = false) (rd : Bool) :
    parseSsnInput input rd true = none := by
  cases rd <;> simp [parseSsnInput, h]

theorem parse_typing_scanNone {input : List Char}
    (h : dashScan input [] false false = none) (rd : Bool) :
    parseSsnInput input rd true = none := by
  cases rd <;> simp [parseSsnInput, h]

theorem parse_typing_req_some {input d : List Char} {s3 s5 : Bool}
    (hv : validCharsOnly input = true)
    (hs : dashScan input [] false false = some (d, s3, s5)) :
    parseSsnInput input true true =
      (if 3 < d.length ∧ s3 = false then none
       else if 5 < d.length ∧ s5 = false then none
       else some d) := by
  simp [parseSsnInput, hv, hs]

theorem parse_typing_noreq_some {input d : List Char} {s3 s5 : Bool}
    (hv : validCharsOnly input = true)
    (hs : dashScan input [] false false = some (d, s3, s5)) :
    parseSsnInput input false true = some d := by
  simp [parseSsnInput, hv, hs]

/-- C7: partial-mode invalidity is stable under extension.  If `isValidSsn`
with `allowPartial` reports a prefix invalid, every extension of that prefix
is also reported invalid (for any `requireDashes` / `ruleMode`). -/
theorem partial_invalid_monotone (p s : List Char) (rd : Bool) (rm : SsnRuleMode)
    (h : isValidSsn p rd rm true = false) :
    isValidSsn (p ++ s) rd rm true = false := by
  by_cases hv : validCharsOnly p = true
  case neg =>
    have hv' : validCharsOnly p = false := by simpa using hv
    have hv2 : validCharsOnly (p ++ s) = false := by
      rw [validCharsOnly] at hv' ⊢
      rw [List.all_append, hv']
      rfl
    rw [isValidSsn, parse_typing_invalidChars hv2 rd]
  case pos =>
    cases hscan : dashScan p [] false false with
    | none =>
      have h2 : dashScan (p ++ s) [] false false = none := by
        rw [dashScan_append, hscan]
        rfl
      rw [isValidSsn, parse_typing_scanNone h2 rd]
    | some t =>
      obtain ⟨d, s3, s5⟩ := t
      by_cases hv2 : validCharsOnly (p ++ s) = true
      case neg =>
        have hv2' : validCharsOnly (p ++ s) = false := by simpa using hv2
        rw [isValidSsn, parse_typing_invalidChars hv2' rd]
      case pos =>
        cases hscan2 : dashScan s d s3 s5 with
        | none =>
          have h2 : dashScan (p ++ s) [] false false = none := by
            rw [dashScan_append, hscan]
            exact hscan2
          rw [isValidSsn, parse_typing_scanNone h2 rd]
        | some t2 =>
          obtain ⟨d2, s3', s5'⟩ := t2
          have hscanPS : dashScan (p ++ s) [] false false = some (d2, s3', s5') := by
            rw [dashScan_append, hscan]
            exact hscan2
          obtain ⟨⟨e, rfl⟩, hst3, hst5⟩ := dashScan_state s d s3 s5 d2 s3' s5' hscan2
          have hnine : d.length = 9 → e = [] := fun h9 => dashScan_nine_nil h9 hscan2
          cases rd with
          | false =>
            have hp : parseSsnInput p false true = some d :=
              parse_typing_noreq_some hv hscan
            have hps : parseSsnInput (p ++ s) false true = some (d ++ e) :=
              parse_typing_noreq_some hv2 hscanPS
            rw [isValidSsn, hp] at h
            rw [isValidSsn, hps]
            exact ruleChecks_mono d e rm hnine h
          | true =>
            by_cases hpost3 : 3 < d.length ∧ s3 = false
            · have hcond : 3 < (d ++ e).length ∧ s3' = false :=
                ⟨by simp; omega, by rw [hst3 hpost3.1]; exact hpost3.2⟩
              rw [isValidSsn, parse_typing_req_some hv2 hscanPS, if_pos hcond]
            · by_cases hpost5 : 5 < d.length ∧ s5 = false
              · have hcond5 : 5 < (d ++ e).length ∧ s5' = false :=
                  ⟨by simp; omega, by rw [hst5 hpost5.1]; exact hpost5.2⟩
                rw [isValidSsn, parse_typing_req_some hv2 hscanPS]
                by_cases hc3 : 3 < (d ++ e).length ∧ s3' = false
                · rw [if_pos hc3]
                · rw [if_neg hc3, if_pos hcond5]
              · have hp : parseSsnInput p true true = some d := by
                  rw [parse_typing_req_some hv hscan, if_neg hpost3, if_neg hpost5]
                rw [isValidSsn, hp] at h
                by_cases hc3 : 3 < (d ++ e).length ∧ s3' = false
                · rw [isValidSsn, parse_typing_req_some hv2 hscanPS, if_pos hc3]
                · by_cases hc5 : 5 < (d ++ e).length ∧ s5' = false
                  · rw [isValidSsn, parse_typing_req_some hv2 hscanPS,
                      if_neg hc3, if_pos hc5]
                  · have hps : parseSsnInput (p ++ s) true true = some (d ++ e) := by
                      rw [parse_typing_req_some hv2 hscanPS, if_neg hc3, if_neg hc5]
                    rw [isValidSsn, hps]
                    exact ruleChecks_mono d e rm hnine h

/-- Witness for C7: "900" is an invalid partial prefix (area look-ahead), and
remains invalid after appending "-12-3456". -/
theorem partial_invalid_monotone_witness :
    isValidSsn ("900".toList) true SsnRuleMode.post2011 true = false ∧
    isValidSsn ("900".toList ++ "-12-3456".toList) true SsnRuleMode.post2011 true = false :=
  ⟨by decide,
   partial_invalid_monotone ("900".toList) ("-12-3456".toList) true SsnRuleMode.post2011
     (by decide)⟩

/-! ## The structured validator variant (`validateSsn`) -/

/-- The failure reasons of the structured validator. -/
inductive SsnValidationFailureReason where
  | INVALID_FORMAT
  | INVALID_AREA
  | INVALID_GROUP
  | INVALID_SERIAL
  | PUBLICLY_ADVERTISED
deriving DecidableEq

/-- Validation result: `ok` carries the normalized string; `error` carries the
reason code (the human-readable `message` strings of the source are omitted). -/
inductive SsnValidationResult where
  | ok (normalized : List Char)
  | error (reason : SsnValidationFailureReason)
deriving DecidableEq

/-- The `ok` flag of a validation result. -/
def SsnValidationResult.isOk : SsnValidationResult → Bool
  | .ok _ => true
  | .error _ => false

/-- The three rule modes of the structured validator
(`'pre2011' | 'post2011' | 'both'`). -/
inductive SsnRuleMode3 where
  | pre2011
  | post2011
  | both
deriving DecidableEq

/-- Options of the structured `validateSsn`, with the source defaults. -/
structure ValidateSsnOptions where
  allowNoDashes : Bool := true
  ruleMode : SsnRuleMode3 := SsnRuleMode3.both
  allowPartial : Bool := false

/-- The structured validator's `normalizePrefix` (digit prefix to dashed
prefix); same dash insertion as `formatSsnFromDigits`. -/
def normalizePrefixOf (digits : List Char) : List Char :=
  if digits.length ≤ 3 then digits
  else if digits.length ≤ 5 then digits.take 3 ++ '-' :: digits.drop 3
  else digits.take 3 ++ '-' :: ((digits.drop 3).take 2 ++ '-' :: digits.drop 5)

/-- `validateFullSegments`: base area rule, pre-2011 extra area rule, group
and serial rules, on complete segments. -/
def validateFullSegments (area group serial : List Char) (ruleMode : SsnRuleMode3) :
    SsnValidationResult :=
  let areaNum := digitsToNat area
  let groupNum := digitsToNat group
  let serialNum := digitsToNat serial
  if areaNum = 0 ∨ areaNum = 666 ∨ 900 ≤ areaNum then
    SsnValidationResult.error SsnValidationFailureReason.INVALID_AREA
  else if ruleMode = SsnRuleMode3.pre2011 ∧
      ((734 ≤ areaNum ∧ areaNum ≤ 749) ∨ 773 ≤ areaNum) then
    SsnValidationResult.error SsnValidationFailureReason.INVALID_AREA
  else if groupNum = 0 then
    SsnValidationResult.error SsnValidationFailureReason.INVALID_GROUP
  else if serialNum = 0 then
    SsnValidationResult.error SsnValidationFailureReason.INVALID_SERIAL
  else SsnValidationResult.ok (area ++ '-' :: (group ++ '-' :: serial))

/-- `validatePartialSegments`: checking-as-you-go rules; each rule fires only
once its segment is complete, except that an area starting with '9' is
rejected immediately. -/
def validatePartialSegments (area group serial : List Char) (ruleMode : SsnRuleMode3) :
    SsnValidationResult :=
  if 1 ≤ area.length ∧ area.head? = some '9' then
    SsnValidationResult.error SsnValidationFailureReason.INVALID_AREA
  else if area.length = 3 ∧
      (digitsToNat area = 0 ∨ digitsToNat area = 666 ∨ 900 ≤ digitsToNat area) then
    SsnValidationResult.error SsnValidationFailureReason.INVALID_AREA
  else if area.length = 3 ∧ ruleMode = SsnRuleMode3.pre2011 ∧
      ((734 ≤ digitsToNat area ∧ digitsToNat area ≤ 749) ∨ 773 ≤ digitsToNat area) then
    SsnValidationResult.error SsnValidationFailureReason.INVALID_AREA
  else if group.length = 2 ∧ digitsToNat group = 0 then
    SsnValidationResult.error SsnValidationFailureReason.INVALID_GROUP
  else if serial.length = 4 ∧ digitsToNat serial = 0 then
    SsnValidationResult.error SsnValidationFailureReason.INVALID_SERIAL
  else if serial.length = 4 ∧ (area ++ '-' :: (group ++ '-' :: serial)) ∈ PUBLICLY_ADVERTISED then
    SsnValidationResult.error SsnValidationFailureReason.PUBLICLY_ADVERTISED
  else SsnValidationResult.ok (normalizePrefixOf ((area ++ group ++ serial).take 9))

/-- Result of `normalizeSsnInput`: extracted digits plus dash-normalized form,
or a format error. -/
inductive NormalizeSsnResult where
  | ok (digits : List Char) (normalized : List Char)
  | err
deriving DecidableEq

/-- Modelled from the spec: the module defining `normalizeSsnInput` (imported
by the structured `validateSsn` and by the `maskSsn` variant, and re-exported
by `index.ts`) is not part of the source snapshot; only its callers and tests
are.  Following spec §4.1 (Segment Parser): strict mode accepts exactly
`DDD-DD-DDDD`, or `DDDDDDDDD` when separators are optional; typing mode scans
left to right, accepting a separator only right after 3 digits (once) or
right after 5 digits (once), rejects more than 9 digits, and when separators
are required rejects digits typed past offset 3 (resp. 5) without the
separator placed there.  `requireSeparators` corresponds to
`!allowNoDashes`; this is the same algorithm as `parseSsnInput` in
`validate.ts`, which §4.1 describes.  The normalized form is the dash
formatting of the extracted digits (§4.4). -/
def normalizeSsnInput (input : List Char) (allowNoDashes allowPartial : Bool) :
    NormalizeSsnResult :=
  match parseSsnInput input (!allowNoDashes) allowPartial with
  | some digits => NormalizeSsnResult.ok digits (formatSsnFromDigits digits)
  | none => NormalizeSsnResult.err

/-- The structured `validateSsn`: normalize, strict-mode denylist check, then
full or progressive segment rules. -/
def validateSsn (input : List Char) (opts : ValidateSsnOptions) : SsnValidationResult :=
  match normalizeSsnInput input opts.allowNoDashes opts.allowPartial with
  | NormalizeSsnResult.err =>
    SsnValidationResult.error SsnValidationFailureReason.INVALID_FORMAT
  | NormalizeSsnResult.ok digits normalized =>
    if opts.allowPartial = false ∧ normalized ∈ PUBLICLY_ADVERTISED then
      SsnValidationResult.error SsnValidationFailureReason.PUBLICLY_ADVERTISED
    else
      match (if opts.allowPartial = true then
               validatePartialSegments (digits.take 3) ((digits.drop 3).take 2)
                 ((digits.drop 5).take 4) opts.ruleMode
             else
               validateFullSegments (digits.take 3) ((digits.drop 3).take 2)
                 ((digits.drop 5).take 4) opts.ruleMode) with
      | SsnValidationResult.error r => SsnValidationResult.error r
      | SsnValidationResult.ok _ => SsnValidationResult.ok normalized

example : validateSsn ("123-45-6789".toList) {} =
    SsnValidationResult.ok ("123-45-6789".toList) := by decide
example : validateSsn ("123456789".toList) {} =
    SsnValidationResult.ok ("123-45-6789".toList) := by decide
example : validateSsn ("078-05-1120".toList) {} =
    SsnValidationResult.error SsnValidationFailureReason.PUBLICLY_ADVERTISED := by decide
example : validateSsn ("000-12-3456".toList) {} =
    SsnValidationResult.error SsnValidationFailureReason.INVALID_AREA := by decide
example : validateSsn ("123-00-6789".toList) {} =
    SsnValidationResult.error SsnValidationFailureReason.INVALID_GROUP := by decide
example : validateSsn ("123-45-0000".toList) {} =
    SsnValidationResult.error SsnValidationFailureReason.INVALID_SERIAL := by decide
example : validateSsn ("123-00-0000".toList) {} =
    SsnValidationResult.error SsnValidationFailureReason.INVALID_GROUP := by decide
example : validateSsn ("773-12-3456".toList) { ruleMode := SsnRuleMode3.pre2011 } =
    SsnValidationResult.error SsnValidationFailureReason.INVALID_AREA := by decide
example : validateSsn ("773-12-3456".toList) { ruleMode := SsnRuleMode3.post2011 } =
    SsnValidationResult.ok ("773-12-3456".toList) := by decide
example : validateSsn ("773-12-3456".toList) {} =
    SsnValidationResult.ok ("773-12-3456".toList) := by decide
example : validateSsn ("123456789".toList) { allowNoDashes := false } =
    SsnValidationResult.error SsnValidationFailureReason.INVALID_FORMAT := by decide
example : validateSsn ("1234".toList) { allowPartial := true } =
    SsnValidationResult.ok ("123-4".toList) := by decide
example : validateSsn ("123-".toList) { allowPartial := true } =
    SsnValidationResult.ok ("123".toList) := by decide
example : validateSsn ("9".toList) { allowPartial := true } =
    SsnValidationResult.error SsnValidationFailureReason.INVALID_AREA := by decide
example : validateSsn ("123-0".toList) { allowPartial := true } =
    SsnValidationResult.ok ("123-0".toList) := by decide
example : validateSsn ("123-00".toList) { allowPartial := true } =
    SsnValidationResult.error SsnValidationFailureReason.INVALID_GROUP := by decide
example : validateSsn ("078-05-112".toList) { allowPartial := true } =
    SsnValidationResult.ok ("078-05-112".toList) := by decide
example : validateSsn ("078-05-1120".toList) { allowPartial := true } =
    SsnValidationResult.error SsnValidationFailureReason.PUBLICLY_ADVERTISED := by decide
example : validateSsn ("734".toList) { allowPartial := true, ruleMode := SsnRuleMode3.pre2011 } =
    SsnValidationResult.error SsnValidationFailureReason.INVALID_AREA := by decide
example : validateSsn ("73".toList) { allowPartial := true, ruleMode := SsnRuleMode3.pre2011 } =
    SsnValidationResult.ok ("73".toList) := by decide

/-! ## Rule-mode collapse and early area rejection (C2, C4, C5) -/

theorem validateFullSegments_both_post (a g s : List Char) :
    validateFullSegments a g s SsnRuleMode3.both =
      validateFullSegments a g s SsnRuleMode3.post2011 := by
  unfold validateFullSegments
  simp

theorem validatePartialSegments_both_post (a g s : List Char) :
    validatePartialSegments a g s SsnRuleMode3.both =
      validatePartialSegments a g s SsnRuleMode3.post2011 := by
  unfold validatePartialSegments
  simp

/-- C2: `validateSsn` with `ruleMode = 'both'` returns the same result (same
ok flag, error code and normalized string) as with `ruleMode = 'post2011'`,
for every input and every setting of the other options: the pre-2011-only
area restriction is never applied in either mode. -/
theorem validateSsn_both_eq_post2011 (input : List Char) (aND aP : Bool) :
    validateSsn input { allowNoDashes := aND, ruleMode := SsnRuleMode3.both, allowPartial := aP } =
      validateSsn input { allowNoDashes := aND, ruleMode := SsnRuleMode3.post2011, allowPartial := aP } := by
  unfold validateSsn
  cases hn : normalizeSsnInput input aND aP with
  | err => rfl
  | ok digits normalized =>
    cases aP with
    | false =>
      simp [validateFullSegments_both_post, validatePartialSegments_both_post]
    | true =>
      simp [validateFullSegments_both_post, validatePartialSegments_both_post]

/-- C4: in typing mode, any successfully parsed input whose first (area) digit
is '9' is rejected immediately as `INVALID_AREA`, even when only one digit is
known — without waiting for the area segment to reach 3 digits. -/
theorem partial_first_digit_nine_rejected (input : List Char) (aND : Bool)
    (rm : SsnRuleMode3) (d norm : List Char)
    (hn : normalizeSsnInput input aND true = NormalizeSsnResult.ok d norm)
    (hh : d.head? = some '9') :
    validateSsn input { allowNoDashes := aND, ruleMode := rm, allowPartial := true } =
      SsnValidationResult.error SsnValidationFailureReason.INVALID_AREA := by
  cases d with
  | nil => simp at hh
  | cons c rest =>
    have hc : c = '9' := by simpa using hh
    subst hc
    simp [validateSsn, hn, validatePartialSegments, List.take_cons]

/-- Witness for C4 at the three-character input "987". -/
theorem partial_first_digit_nine_rejected_witness :
    validateSsn ("987".toList) { allowPartial := true } =
      SsnValidationResult.error SsnValidationFailureReason.INVALID_AREA :=
  partial_first_digit_nine_rejected ("987".toList) true SsnRuleMode3.both
    ("987".toList) ("987".toList) (by decide) (by decide)

/-- Counterexample for C5 as stated: validating the single character "9" with
`allowPartial = true` does NOT return ok — the structured validator's
look-ahead rejects it at once. -/
theorem lone_nine_not_ok :
    (validateSsn ("9".toList) { allowPartial := true }).isOk = false := by decide

/-- C5 (amended): validating "9" with `allowPartial = true` returns
`ok = false` with reason `INVALID_AREA` — a lone '9' is rejected immediately
as an impossible prefix. -/
theorem lone_nine_invalid_area :
    validateSsn ("9".toList) { allowPartial := true } =
      SsnValidationResult.error SsnValidationFailureReason.INVALID_AREA := by decide

/-! ## Partial/strict convergence at 9 digits (C1) -/

theorem digit_eq_nine_iff {c : Char} : c = '9' ↔ c.toNat = 57 := by
  constructor
  · rintro rfl
    decide
  · intro ht
    have h2 := Char.ofNat_toNat c
    rw [ht] at h2
    have h3 : Char.ofNat 57 = '9' := by decide
    rw [h3] at h2
    exact h2.symm

theorem head_nine_iff_ge_900 {a : List Char} (ha : a.length = 3)
    (hall : a.all isDigitChar = true) :
    a.head? = some '9' ↔ 900 ≤ digitsToNat a := by
  obtain ⟨c1, c2, c3, rfl⟩ := List.length_eq_three.mp ha
  simp only [List.all_cons, Bool.and_eq_true] at hall
  obtain ⟨hd1, hd2, hd3, -⟩ := hall
  obtain ⟨hb1a, hb1b⟩ := toNat_bounds_of_digit hd1
  obtain ⟨hb2a, hb2b⟩ := toNat_bounds_of_digit hd2
  obtain ⟨hb3a, hb3b⟩ := toNat_bounds_of_digit hd3
  simp only [List.head?_cons, Option.some.injEq, digitsToNat, List.foldl]
  constructor
  · intro hc
    have h57 : c1.toNat = 57 := digit_eq_nine_iff.mp hc
    omega
  · intro hge
    exact digit_eq_nine_iff.mpr (by omega)

theorem digitsToNat_lt_1000 {a : List Char} (ha : a.length = 3)
    (hall : a.all isDigitChar = true) : digitsToNat a < 1000 := by
  obtain ⟨c1, c2, c3, rfl⟩ := List.length_eq_three.mp ha
  simp only [List.all_cons, Bool.and_eq_true] at hall
  obtain ⟨hd1, hd2, hd3, -⟩ := hall
  obtain ⟨hb1a, hb1b⟩ := toNat_bounds_of_digit hd1
  obtain ⟨hb2a, hb2b⟩ := toNat_bounds_of_digit hd2
  obtain ⟨hb3a, hb3b⟩ := toNat_bounds_of_digit hd3
  simp only [digitsToNat, List.foldl]
  omega

/-- On complete, non-denylisted segments the progressive rules agree exactly
with the full rules (same verdict, same reason, same normalized payload). -/
theorem segments_partial_eq_full (a g s : List Char)
    (ha : a.length = 3) (hg : g.length = 2) (hs : s.length = 4)
    (had : a.all isDigitChar = true) (rm : SsnRuleMode3)
    (hnd : (a ++ '-' :: (g ++ '-' :: s)) ∉ PUBLICLY_ADVERTISED) :
    validatePartialSegments a g s rm = validateFullSegments a g s rm := by
  simp only [validatePartialSegments, validateFullSegments]
  by_cases h9 : a.head? = some '9'
  · rw [if_pos ⟨by omega, h9⟩,
      if_pos (Or.inr (Or.inr ((head_nine_iff_ge_900 ha had).mp h9)))]
  · have hlt : ¬ 900 ≤ digitsToNat a := fun hge =>
      h9 ((head_nine_iff_ge_900 ha had).mpr hge)
    rw [if_neg (fun hcon => h9 hcon.2)]
    by_cases hbase : digitsToNat a = 0 ∨ digitsToNat a = 666
    · rcases hbase with hb | hb
      · rw [if_pos ⟨ha, Or.inl hb⟩, if_pos (Or.inl hb)]
      · rw [if_pos ⟨ha, Or.inr (Or.inl hb)⟩, if_pos (Or.inr (Or.inl hb))]
    · have hbase' : ¬(digitsToNat a = 0 ∨ digitsToNat a = 666 ∨ 900 ≤ digitsToNat a) := by
        rintro (hb | hb | hb)
        · exact hbase (Or.inl hb)
        · exact hbase (Or.inr hb)
        · exact hlt hb
      rw [if_neg (fun hcon => hbase' hcon.2), if_neg hbase']
      by_cases hpre : rm = SsnRuleMode3.pre2011 ∧
          ((734 ≤ digitsToNat a ∧ digitsToNat a ≤ 749) ∨ 773 ≤ digitsToNat a)
      · rw [if_pos ⟨ha, hpre.1, hpre.2⟩, if_pos hpre]
      · rw [if_neg (fun hcon => hpre ⟨hcon.2.1, hcon.2.2⟩), if_neg hpre]
        by_cases hgz : digitsToNat g = 0
        · rw [if_pos ⟨hg, hgz⟩, if_pos hgz]
        · rw [if_neg (fun hcon => hgz hcon.2), if_neg hgz]
          by_cases hsz : digitsToNat s = 0
          · rw [if_pos ⟨hs, hsz⟩, if_pos hsz]
          · rw [if_neg (fun hcon => hsz hcon.2), if_neg hsz,
              if_neg (fun hcon => hnd hcon.2)]
            have hlen : (a ++ g ++ s).length = 9 := by
              simp [ha, hg, hs]
            have htake : (a ++ g ++ s).take 9 = a ++ g ++ s := by
              rw [← hlen, List.take_length]
            rw [htake]
            have h3 : ¬ (a ++ g ++ s).length ≤ 3 := by omega
            have h5 : ¬ (a ++ g ++ s).length ≤ 5 := by omega
            rw [normalizePrefixOf, if_neg h3, if_neg h5]
            have hta : (a ++ g ++ s).take 3 = a := by
              rw [List.append_assoc, List.take_left' ha]
            have hda : (a ++ g ++ s).drop 3 = g ++ s := by
              rw [List.append_assoc, List.drop_left' ha]
            have htg : (g ++ s).take 2 = g := List.take_left' hg
            have hd5 : (a ++ g ++ s).drop 5 = s := by
              rw [List.drop_left' (by simp [ha, hg] : (a ++ g).length = 5)]
            rw [hta, hda, htg, hd5]

theorem matchesDashedFull_build (A G S : List Char)
    (hA : A.length = 3) (hG : G.length = 2) (hS : S.length = 4)
    (hAd : A.all isDigitChar = true) (hGd : G.all isDigitChar = true)
    (hSd : S.all isDigitChar = true) :
    matchesDashedFull (A ++ '-' :: (G ++ '-' :: S)) = true := by
  obtain ⟨a1, a2, a3, rfl⟩ := List.length_eq_three.mp hA
  obtain ⟨g1, g2, rfl⟩ := List.length_eq_two.mp hG
  obtain ⟨s1, S', rfl, hS'⟩ : ∃ x xs, S = x :: xs ∧ xs.length = 3 := by
    cases S with
    | nil => simp at hS
    | cons x xs => exact ⟨x, xs, rfl, by simpa using hS⟩
  obtain ⟨s2, s3, s4, rfl⟩ := List.length_eq_three.mp hS'
  simp only [List.all_cons, Bool.and_eq_true] at hAd hGd hSd
  simp [matchesDashedFull, hAd.1, hAd.2.1, hAd.2.2.1, hGd.1, hGd.2.1,
    hSd.1, hSd.2.1, hSd.2.2.1, hSd.2.2.2.1]

theorem filter_dashed_build (A G S : List Char)
    (hAd : A.all isDigitChar = true) (hGd : G.all isDigitChar = true)
    (hSd : S.all isDigitChar = true) :
    (A ++ '-' :: (G ++ '-' :: S)).filter (fun c => c != '-') = A ++ G ++ S := by
  have hfA : A.filter (fun c => c != '-') = A :=
    List.filter_eq_self.mpr fun c hc => bne_dash_of_digit (List.all_eq_true.mp hAd c hc)
  have hfG : G.filter (fun c => c != '-') = G :=
    List.filter_eq_self.mpr fun c hc => bne_dash_of_digit (List.all_eq_true.mp hGd c hc)
  have hfS : S.filter (fun c => c != '-') = S :=
    List.filter_eq_self.mpr fun c hc => bne_dash_of_digit (List.all_eq_true.mp hSd c hc)
  simp [List.filter_append, List.filter_cons, hfA, hfG, hfS]

theorem validChars_dashed_build (A G S : List Char)
    (hAd : A.all isDigitChar = true) (hGd : G.all isDigitChar = true)
    (hSd : S.all isDigitChar = true) :
    validCharsOnly (A ++ '-' :: (G ++ '-' :: S)) = true := by
  rw [validCharsOnly, List.all_eq_true]
  intro c hc
  have hdig : ∀ x : Char, isDigitChar x = true → (isDigitChar x || x == '-') = true := by
    intro x hx
    rw [hx]
    rfl
  rcases List.mem_append.mp hc with h | h
  · exact hdig c (List.all_eq_true.mp hAd c h)
  · rcases List.mem_cons.mp h with rfl | h
    · rfl
    · rcases List.mem_append.mp h with h' | h'
      · exact hdig c (List.all_eq_true.mp hGd c h')
      · rcases List.mem_cons.mp h' with rfl | h'
        · rfl
        · exact hdig c (List.all_eq_true.mp hSd c h')

theorem dashScan_digits (l : List Char) :
    ∀ d : List Char, ∀ s3 s5 : Bool, l.all isDigitChar = true → d.length + l.length ≤ 9 →
    dashScan l d s3 s5 = some (d ++ l, s3, s5) := by
  induction l with
  | nil =>
    intro d s3 s5 _ _
    simp [dashScan]
  | cons c rest ih =>
    intro d s3 s5 hall hlen
    simp only [List.all_cons, Bool.and_eq_true] at hall
    rw [dashScan, if_pos hall.1,
      if_neg (by simp only [List.length_cons] at hlen; omega)]
    rw [ih (d ++ [c]) s3 s5 hall.2
      (by simp only [List.length_cons] at hlen; simp; omega)]
    simp

theorem dashScan_dashed_build (A G S : List Char)
    (hA : A.length = 3) (hG : G.length = 2) (hS : S.length = 4)
    (hAd : A.all isDigitChar = true) (hGd : G.all isDigitChar = true)
    (hSd : S.all isDigitChar = true) :
    dashScan (A ++ '-' :: (G ++ '-' :: S)) [] false false =
      some (A ++ G ++ S, true, true) := by
  rw [dashScan_append, dashScan_digits A [] false false hAd (by simp [hA]),
    Option.some_bind]
  simp only [List.nil_append]
  rw [dashScan, if_neg (by simp [isDigitChar_dash]), if_pos ⟨hA, rfl⟩]
  rw [dashScan_append, dashScan_digits G A true false hGd (by simp [hA, hG]),
    Option.some_bind]
  simp only []
  rw [dashScan, if_neg (by simp [isDigitChar_dash]),
    if_neg (by rintro ⟨hcon, -⟩; simp [hA, hG] at hcon),
    if_pos ⟨by simp [hA, hG], rfl⟩]
  rw [dashScan_digits S (A ++ G) true true hSd (by simp [hA, hG, hS])]

theorem parse_dashed_build_strict (A G S : List Char) (rd : Bool)
    (hA : A.length = 3) (hG : G.length = 2) (hS : S.length = 4)
    (hAd : A.all isDigitChar = true) (hGd : G.all isDigitChar = true)
    (hSd : S.all isDigitChar = true) :
    parseSsnInput (A ++ '-' :: (G ++ '-' :: S)) rd false = some (A ++ G ++ S) := by
  rw [parseSsnInput, if_pos rfl,
    if_pos (matchesDashedFull_build A G S hA hG hS hAd hGd hSd),
    filter_dashed_build A G S hAd hGd hSd]

theorem parse_dashed_build_partial (A G S : List Char) (rd : Bool)
    (hA : A.length = 3) (hG : G.length = 2) (hS : S.length = 4)
    (hAd : A.all isDigitChar = true) (hGd : G.all isDigitChar = true)
    (hSd : S.all isDigitChar = true) :
    parseSsnInput (A ++ '-' :: (G ++ '-' :: S)) rd true = some (A ++ G ++ S) := by
  have hv := validChars_dashed_build A G S hAd hGd hSd
  have hscan := dashScan_dashed_build A G S hA hG hS hAd hGd hSd
  cases rd with
  | true =>
    rw [parse_typing_req_some hv hscan,
      if_neg (by rintro ⟨-, hcon⟩; exact Bool.false_ne_true hcon.symm),
      if_neg (by rintro ⟨-, hcon⟩; exact Bool.false_ne_true hcon.symm)]
  | false =>
    exact parse_typing_noreq_some hv hscan

theorem segments_reassemble (d : List Char) :
    d.take 3 ++ (d.drop 3).take 2 ++ d.drop 5 = d := by
  have h2 : (d.drop 3).drop 2 = d.drop 5 := by
    rw [List.drop_drop]
  calc d.take 3 ++ (d.drop 3).take 2 ++ d.drop 5
      = d.take 3 ++ ((d.drop 3).take 2 ++ (d.drop 3).drop 2) := by
        rw [← h2, List.append_assoc]
    _ = d.take 3 ++ d.drop 3 := by rw [List.take_append_drop]
    _ = d := List.take_append_drop _ _

theorem ruleChecks_nine (d : List Char) (rm : SsnRuleMode) (h9 : d.length = 9) :
    ssnRuleChecks d rm true = ssnRuleChecks d rm false := by
  rw [ssnRuleChecks, ssnRuleChecks,
    if_neg (show ¬((true : Bool) = false ∧ d.length ≠ 9) from
      by rintro ⟨hcon, -⟩; exact Bool.false_ne_true hcon.symm),
    if_neg (show ¬((false : Bool) = false ∧ d.length ≠ 9) from
      by rintro ⟨-, hcon⟩; exact hcon h9)]

theorem validateSsn_partial_unfold (input : List Char) (aND : Bool) (rm3 : SsnRuleMode3)
    (d norm : List Char)
    (hn : normalizeSsnInput input aND true = NormalizeSsnResult.ok d norm) :
    validateSsn input { allowNoDashes := aND, ruleMode := rm3, allowPartial := true } =
      (match validatePartialSegments (d.take 3) ((d.drop 3).take 2)
          ((d.drop 5).take 4) rm3 with
       | SsnValidationResult.error r => SsnValidationResult.error r
       | SsnValidationResult.ok _ => SsnValidationResult.ok norm) := by
  simp only [validateSsn, hn]
  rw [if_neg (show ¬((true : Bool) = false ∧ norm ∈ PUBLICLY_ADVERTISED) from
    by rintro ⟨hcon, -⟩; exact Bool.false_ne_true hcon.symm)]
  simp

theorem validateSsn_strict_unfold (input : List Char) (aND : Bool) (rm3 : SsnRuleMode3)
    (d norm : List Char)
    (hn : normalizeSsnInput input aND false = NormalizeSsnResult.ok d norm) :
    validateSsn input { allowNoDashes := aND, ruleMode := rm3, allowPartial := false } =
      (if norm ∈ PUBLICLY_ADVERTISED then
        SsnValidationResult.error SsnValidationFailureReason.PUBLICLY_ADVERTISED
       else
        match validateFullSegments (d.take 3) ((d.drop 3).take 2)
            ((d.drop 5).take 4) rm3 with
        | SsnValidationResult.error r => SsnValidationResult.error r
        | SsnValidationResult.ok _ => SsnValidationResult.ok norm) := by
  simp only [validateSsn, hn]
  simp

/-- C1: partial-mode validation at full length agrees exactly with strict
validation.  For every 9-digit string `d` and every rule configuration, the
boolean validator `isValidSsn` gives the same verdict on `formatDigits d` in
typing mode and in strict mode; and the structured `validateSsn` returns the
very same result (same ok flag, and on failure the same reason code). -/
theorem partial_strict_convergence (d : List Char) (h9 : d.length = 9)
    (hall : d.all isDigitChar = true) :
    (∀ (rd : Bool) (rm : SsnRuleMode),
      isValidSsn (formatSsnFromDigits d) rd rm true =
        isValidSsn (formatSsnFromDigits d) rd rm false)
    ∧ (∀ (aND : Bool) (rm3 : SsnRuleMode3),
      validateSsn (formatSsnFromDigits d)
          { allowNoDashes := aND, ruleMode := rm3, allowPartial := true } =
        validateSsn (formatSsnFromDigits d)
          { allowNoDashes := aND, ruleMode := rm3, allowPartial := false }) := by
  have hA : (d.take 3).length = 3 := by
    rw [List.length_take]
    omega
  have hG : ((d.drop 3).take 2).length = 2 := by
    rw [List.length_take, List.length_drop]
    omega
  have hS : (d.drop 5).length = 4 := by
    rw [List.length_drop]
    omega
  have hsub : ∀ l : List Char, (∀ c ∈ l, c ∈ d) → l.all isDigitChar = true := by
    intro l hl
    rw [List.all_eq_true]
    exact fun c hc => List.all_eq_true.mp hall c (hl c hc)
  have hAd : (d.take 3).all isDigitChar = true :=
    hsub _ fun c hc => List.take_subset _ _ hc
  have hGd : ((d.drop 3).take 2).all isDigitChar = true :=
    hsub _ fun c hc => List.drop_subset _ _ (List.take_subset _ _ hc)
  have hSd : (d.drop 5).all isDigitChar = true :=
    hsub _ fun c hc => List.drop_subset _ _ hc
  have hfmt : formatSsnFromDigits d =
      d.take 3 ++ '-' :: ((d.drop 3).take 2 ++ '-' :: d.drop 5) := by
    rw [formatSsnFromDigits, if_neg (by omega), if_neg (by omega)]
  have hre : d.take 3 ++ (d.drop 3).take 2 ++ d.drop 5 = d := segments_reassemble d
  have hps : ∀ rd : Bool, parseSsnInput (formatSsnFromDigits d) rd false = some d := by
    intro rd
    rw [hfmt, parse_dashed_build_strict _ _ _ rd hA hG hS hAd hGd hSd, hre]
  have hpp : ∀ rd : Bool, parseSsnInput (formatSsnFromDigits d) rd true = some d := by
    intro rd
    rw [hfmt, parse_dashed_build_partial _ _ _ rd hA hG hS hAd hGd hSd, hre]
  constructor
  · intro rd rm
    simp only [isValidSsn, hps rd, hpp rd]
    exact ruleChecks_nine d rm h9
  · intro aND rm3
    have hnT : normalizeSsnInput (formatSsnFromDigits d) aND true =
        NormalizeSsnResult.ok d (formatSsnFromDigits d) := by
      rw [normalizeSsnInput, hpp (!aND)]
    have hnF : normalizeSsnInput (formatSsnFromDigits d) aND false =
        NormalizeSsnResult.ok d (formatSsnFromDigits d) := by
      rw [normalizeSsnInput, hps (!aND)]
    have hS4 : (d.drop 5).take 4 = d.drop 5 := by
      rw [← hS, List.take_length]
    rw [validateSsn_partial_unfold _ _ _ _ _ hnT,
      validateSsn_strict_unfold _ _ _ _ _ hnF, hS4]
    by_cases hmem : formatSsnFromDigits d ∈ PUBLICLY_ADVERTISED
    · rw [if_pos hmem]
      have hd : (formatSsnFromDigits d).filter (fun c => c != '-') = d := by
        rw [hfmt, filter_dashed_build _ _ _ hAd hGd hSd, hre]
      simp only [PUBLICLY_ADVERTISED, List.mem_cons, List.not_mem_nil, or_false] at hmem
      rcases hmem with hm | hm | hm <;>
        (rw [hm] at hd; subst hd; cases rm3 <;> decide)
    · rw [if_neg hmem]
      have hnd : (d.take 3 ++ '-' :: ((d.drop 3).take 2 ++ '-' :: d.drop 5))
          ∉ PUBLICLY_ADVERTISED := by
        rw [← hfmt]
        exact hmem
      rw [segments_partial_eq_full _ _ _ hA hG hS hAd rm3 hnd]

/-- Witness for C1 at the digit strings "123456789" (boolean validator, a
valid value) and "078051120" (structured validator, a denylisted value). -/
theorem partial_strict_convergence_witness :
    (isValidSsn (formatSsnFromDigits ("123456789".toList)) true SsnRuleMode.pre2011 true =
      isValidSsn (formatSsnFromDigits ("123456789".toList)) true SsnRuleMode.pre2011 false)
    ∧ (validateSsn (formatSsnFromDigits ("078051120".toList)) { allowPartial := true } =
      validateSsn (formatSsnFromDigits ("078051120".toList)) { allowPartial := false }) :=
  ⟨(partial_strict_convergence ("123456789".toList) (by decide) (by decide)).1
      true SsnRuleMode.pre2011,
   (partial_strict_convergence ("078051120".toList) (by decide) (by decide)).2
      true SsnRuleMode3.both⟩

/-! ## `generate.ts`: the SSN generator -/

/-- The decimal digit character of value `k` (used to model
JavaScript's `n.toString()`). -/
def digitChar (k : Nat) : Char := Char.ofNat (48 + k)

/-- Decimal representation of a natural number (`n.toString()`), written with
explicit fuel so it is structurally recursive. -/
def natReprAux : Nat → Nat → List Char
  | _, 0 => []
  | n, fuel + 1 =>
    if n < 10 then [digitChar n]
    else natReprAux (n / 10) fuel ++ [digitChar (n % 10)]

/-- `n.toString()` for natural `n`. -/
def natRepr (n : Nat) : List Char := natReprAux n (n + 1)

/-- JavaScript `String.prototype.padStart(width, '0')`. -/
def padStart (width : Nat) (l : List Char) : List Char :=
  List.replicate (width - l.length) '0' ++ l

/-- `generate.ts` `pad3`. -/
def pad3 (n : Nat) : List Char := padStart 3 (natRepr n)

/-- `generate.ts` `randomInt(rng, min, max)`: `Math.floor(r * (max - min + 1))
+ min`, on an exact rational sample `r`. -/
def randomInt (r : ℚ) (lo hi : Nat) : Nat :=
  (⌊r * ((hi : ℚ) - (lo : ℚ) + 1)⌋).toNat + lo

/-- `generate.ts` `generateNonZeroFixedWidth` (width 2: `01..99`; width 4:
`0001..9999`). -/
def generateNonZeroFixedWidth (r : ℚ) (width : Nat) : List Char :=
  if width = 2 then padStart 2 (natRepr (randomInt r 1 99))
  else padStart 4 (natRepr (randomInt r 1 9999))

/-- The four generator modes of `generate.ts`. -/
inductive GenerateSsnMode where
  | pre2011
  | post2011
  | any
  | public
deriving DecidableEq

/-- Output format of `generateSsn`. -/
inductive GenFormat where
  | dashed
  | digits
deriving DecidableEq

/-- Dashed output passes through; digits output strips the dashes. -/
def formatOut (format : GenFormat) (s : List Char) : List Char :=
  if format = GenFormat.digits then s.filter (fun c => c != '-') else s

/-- The effective two-valued mode: mode `any` flips a coin (`rng() < 0.5`). -/
def effectiveGenMode : GenerateSsnMode → ℚ → SsnRuleMode
  | GenerateSsnMode.any, r =>
    if r < 1 / 2 then SsnRuleMode.pre2011 else SsnRuleMode.post2011
  | GenerateSsnMode.pre2011, _ => SsnRuleMode.pre2011
  | _, _ => SsnRuleMode.post2011

/-- The generator mode corresponding to a validation rule mode. -/
def genModeOf : SsnRuleMode → GenerateSsnMode
  | SsnRuleMode.pre2011 => GenerateSsnMode.pre2011
  | SsnRuleMode.post2011 => GenerateSsnMode.post2011

/-- `generate.ts` `generateArea`: rejection-sample a 3-digit area from
`[1, 899]`, excluding 666 and, for pre-2011, `[734, 749]` and `>= 773`.  The
source loop is `while (true)`; the embedding makes the retries explicit with
fuel (`none` = the loop has not returned within `fuel` iterations).  The rng
is a stream consumed at increasing indices. -/
def generateAreaFuel : Nat → SsnRuleMode → (Nat → ℚ) → Nat → Option (List Char × Nat)
  | 0, _, _, _ => none
  | fuel + 1, mode, rng, i =>
    let n := randomInt (rng i) 1 899
    if n = 666 then generateAreaFuel fuel mode rng (i + 1)
    else if mode = SsnRuleMode.pre2011 ∧ 734 ≤ n ∧ n ≤ 749 then
      generateAreaFuel fuel mode rng (i + 1)
    else if mode = SsnRuleMode.pre2011 ∧ 773 ≤ n then
      generateAreaFuel fuel mode rng (i + 1)
    else some (pad3 n, i + 1)

/-- `generate.ts` `generateSsn` with the denylist retry (a recursive call in
the source) bounded by fuel; returns the value plus the next rng index. -/
def generateSsnFuel :
    Nat → GenerateSsnMode → GenFormat → Option (List Char) → (Nat → ℚ) → Nat →
      Option (List Char × Nat)
  | 0, _, _, _, _, _ => none
  | fuel + 1, mode, format, publicValue, rng, i =>
    if mode = GenerateSsnMode.public then
      match publicValue with
      | some v => some (formatOut format v, i)
      | none =>
        some (formatOut format (PUBLICLY_ADVERTISED.getD (randomInt (rng i) 0 2) []), i + 1)
    else
      let em := effectiveGenMode mode (rng i)
      let i1 := if mode = GenerateSsnMode.any then i + 1 else i
      match generateAreaFuel (fuel + 1) em rng i1 with
      | none => none
      | some (area, i2) =>
        let group := generateNonZeroFixedWidth (rng i2) 2
        let serial := generateNonZeroFixedWidth (rng (i2 + 1)) 4
        let dashed := area ++ '-' :: (group ++ '-' :: serial)
        if dashed ∈ PUBLICLY_ADVERTISED then
          generateSsnFuel fuel mode format publicValue rng (i2 + 2)
        else some (formatOut format dashed, i2 + 2)

/-- An injected rng is a stream of floats in `[0, 1)`. -/
def rngInRange (rng : Nat → ℚ) : Prop := ∀ n, 0 ≤ rng n ∧ rng n < 1

/-- An adversarial rng whose every sample maps `randomInt(·, 1, 899)` to 666. -/
def badRng : Nat → ℚ := fun _ => 665 / 899

/-- Divergence of the generator on a given rng: no amount of fuel makes the
retry loop return. -/
def generateSsnDiverges (mode : GenerateSsnMode) (rng : Nat → ℚ) : Prop :=
  ∀ fuel i, generateSsnFuel fuel mode GenFormat.dashed none rng i = none

theorem randomInt_zero (lo hi : Nat) : randomInt 0 lo hi = lo := by
  rw [randomInt]
  norm_num

theorem generateAreaFuel_zero (fuel i : Nat) (m : SsnRuleMode) :
    generateAreaFuel (fuel + 1) m (fun _ => 0) i = some (pad3 1, i + 1) := by
  simp only [generateAreaFuel, randomInt_zero]
  rw [if_neg (by omega),
    if_neg (by rintro ⟨-, hcon, -⟩; omega),
    if_neg (by rintro ⟨-, hcon⟩; omega)]

theorem generateSsnFuel_zero :
    generateSsnFuel 1 GenerateSsnMode.pre2011 GenFormat.dashed none (fun _ => 0) 0 =
      some ("001-01-0001".toList, 3) := by
  simp only [generateSsnFuel]
  rw [if_neg (by decide)]
  simp only [effectiveGenMode]
  rw [if_neg (by decide), generateAreaFuel_zero 0 0 SsnRuleMode.pre2011]
  simp only [generateNonZeroFixedWidth, randomInt_zero]
  norm_num
  decide

theorem digitChar_isDigit {k : Nat} (h : k < 10) : isDigitChar (digitChar k) = true := by
  interval_cases k <;> decide

theorem digitChar_toNat {k : Nat} (h : k < 10) : (digitChar k).toNat = 48 + k := by
  interval_cases k <;> decide

theorem digitsToNat_append_singleton (l : List Char) (c : Char) :
    digitsToNat (l ++ [c]) = digitsToNat l * 10 + (c.toNat - 48) := by
  simp [digitsToNat, List.foldl_append]

theorem natReprAux_spec : ∀ fuel n : Nat, n < fuel →
    (natReprAux n fuel).all isDigitChar = true ∧
    digitsToNat (natReprAux n fuel) = n ∧
    1 ≤ (natReprAux n fuel).length ∧
    ∀ w, 1 ≤ w → n < 10 ^ w → (natReprAux n fuel).length ≤ w := by
  intro fuel
  induction fuel with
  | zero => intro n h; omega
  | succ fuel ih =>
    intro n h
    by_cases h10 : n < 10
    · rw [natReprAux, if_pos h10]
      refine ⟨by simp [digitChar_isDigit h10], ?_, by simp, fun w hw _ => by simpa using hw⟩
      simp [digitsToNat, List.foldl, digitChar_toNat h10]
    · have hdiv : n / 10 < n := Nat.div_lt_self (by omega) (by omega)
      have hfn : n / 10 < fuel := by omega
      obtain ⟨ha, hv, hl, hw⟩ := ih (n / 10) hfn
      rw [natReprAux, if_neg h10]
      refine ⟨?_, ?_, ?_, ?_⟩
      · rw [List.all_append, ha]
        simp [digitChar_isDigit (Nat.mod_lt n (by omega))]
      · rw [digitsToNat_append_singleton, hv, digitChar_toNat (Nat.mod_lt n (by omega))]
        omega
      · simp
      · intro w hw1 hwn
        have hw2 : 2 ≤ w := by
          by_contra hcon
          have hw1' : w = 1 := by omega
          rw [hw1'] at hwn
          omega
        have hq : n / 10 < 10 ^ (w - 1) := by
          rw [Nat.div_lt_iff_lt_mul (by omega)]
          calc n < 10 ^ w := hwn
          _ = 10 ^ (w - 1) * 10 := by
            rw [← Nat.pow_succ]
            congr 1
            omega
        have := hw (w - 1) (by omega) hq
        rw [List.length_append]
        simp only [List.length_cons, List.length_nil]
        omega

theorem padRepr_spec (w n : Nat) (hw : 1 ≤ w) (hn : n < 10 ^ w) :
    (padStart w (natRepr n)).length = w ∧
    (padStart w (natRepr n)).all isDigitChar = true ∧
    digitsToNat (padStart w (natRepr n)) = n := by
  obtain ⟨ha, hv, hl, hlen⟩ := natReprAux_spec (n + 1) n (by omega)
  have hlw : (natReprAux n (n + 1)).length ≤ w := hlen w hw hn
  simp only [natRepr]
  refine ⟨?_, ?_, ?_⟩
  · rw [padStart, List.length_append, List.length_replicate]
    omega
  · rw [padStart, List.all_append, ha, Bool.and_true, List.all_eq_true]
    intro c hc
    rw [List.eq_of_mem_replicate hc]
    decide
  · rw [padStart, digitsToNat, List.foldl_append]
    have hz : ∀ k : Nat, List.foldl (fun n c => n * 10 + (c.toNat - 48)) 0
        (List.replicate k '0') = 0 := by
      intro k
      induction k with
      | zero => rfl
      | succ k ihk => simpa [List.replicate_succ, List.foldl] using ihk
    rw [hz]
    exact hv

theorem randomInt_bounds {r : ℚ} (h0 : 0 ≤ r) (h1 : r < 1) (lo hi : Nat) (hlohi : lo ≤ hi) :
    lo ≤ randomInt r lo hi ∧ randomInt r lo hi ≤ hi := by
  have hk : ((hi : ℚ) - (lo : ℚ) + 1) = ((hi - lo + 1 : Nat) : ℚ) := by
    rw [Nat.cast_add, Nat.cast_sub hlohi]
    norm_num
  have hkpos : (0 : ℚ) < ((hi - lo + 1 : Nat) : ℚ) := by
    exact_mod_cast Nat.succ_pos _
  have hnn : 0 ≤ r * ((hi - lo + 1 : Nat) : ℚ) := mul_nonneg h0 (le_of_lt hkpos)
  have hlt : r * ((hi - lo + 1 : Nat) : ℚ) < ((hi - lo + 1 : Nat) : ℚ) := by
    calc r * ((hi - lo + 1 : Nat) : ℚ) < 1 * ((hi - lo + 1 : Nat) : ℚ) :=
      mul_lt_mul_of_pos_right h1 hkpos
    _ = ((hi - lo + 1 : Nat) : ℚ) := one_mul _
  have hfl : 0 ≤ ⌊r * ((hi - lo + 1 : Nat) : ℚ)⌋ := Int.floor_nonneg.mpr hnn
  have hfu : ⌊r * ((hi - lo + 1 : Nat) : ℚ)⌋ < ((hi - lo + 1 : Nat) : ℤ) := by
    rw [Int.floor_lt]
    exact_mod_cast hlt
  rw [randomInt, hk]
  omega

theorem generateArea_sound {mode : SsnRuleMode} {rng : Nat → ℚ} (hr : rngInRange rng) :
    ∀ fuel i s j, generateAreaFuel fuel mode rng i = some (s, j) →
    ∃ n : Nat, s = pad3 n ∧ 1 ≤ n ∧ n ≤ 899 ∧ n ≠ 666 ∧
      (mode = SsnRuleMode.pre2011 → ¬(734 ≤ n ∧ n ≤ 749) ∧ n < 773) := by
  intro fuel
  induction fuel with
  | zero =>
    intro i s j h
    simp [generateAreaFuel] at h
  | succ fuel ih =>
    intro i s j h
    obtain ⟨hlo, hhi⟩ := randomInt_bounds (hr i).1 (hr i).2 1 899 (by omega)
    simp only [generateAreaFuel] at h
    by_cases h666 : randomInt (rng i) 1 899 = 666
    · rw [if_pos h666] at h
      exact ih _ _ _ h
    · rw [if_neg h666] at h
      by_cases hp1 : mode = SsnRuleMode.pre2011 ∧
          734 ≤ randomInt (rng i) 1 899 ∧ randomInt (rng i) 1 899 ≤ 749
      · rw [if_pos hp1] at h
        exact ih _ _ _ h
      · rw [if_neg hp1] at h
        by_cases hp2 : mode = SsnRuleMode.pre2011 ∧ 773 ≤ randomInt (rng i) 1 899
        · rw [if_pos hp2] at h
          exact ih _ _ _ h
        · rw [if_neg hp2] at h
          simp only [Option.some.injEq, Prod.mk.injEq] at h
          refine ⟨randomInt (rng i) 1 899, h.1.symm, hlo, hhi, h666, fun hpre => ⟨?_, ?_⟩⟩
          · intro hcon
            exact hp1 ⟨hpre, hcon⟩
          · by_contra hge
            exact hp2 ⟨hpre, by omega⟩

/-- A freshly generated, non-denylisted dashed value passes `isValidSsn`. -/
theorem isValidSsn_generated (A G S : List Char) (m : SsnRuleMode) (a g s : Nat)
    (hA : A.length = 3) (hG : G.length = 2) (hS : S.length = 4)
    (hAd : A.all isDigitChar = true) (hGd : G.all isDigitChar = true)
    (hSd : S.all isDigitChar = true)
    (hAv : digitsToNat A = a) (hGv : digitsToNat G = g) (hSv : digitsToNat S = s)
    (ha1 : 1 ≤ a) (ha2 : a ≤ 899) (ha3 : a ≠ 666)
    (hpre : m = SsnRuleMode.pre2011 → ¬(734 ≤ a ∧ a ≤ 749) ∧ a < 773)
    (hg1 : 1 ≤ g) (hs1 : 1 ≤ s)
    (hnd : (A ++ '-' :: (G ++ '-' :: S)) ∉ PUBLICLY_ADVERTISED) :
    isValidSsn (A ++ '-' :: (G ++ '-' :: S)) true m false = true := by
  simp only [isValidSsn, parse_dashed_build_strict A G S true hA hG hS hAd hGd hSd]
  have hlen : (A ++ G ++ S).length = 9 := by
    simp [hA, hG, hS]
  have hta : (A ++ G ++ S).take 3 = A := by
    rw [List.append_assoc, List.take_left' hA]
  have hda : (A ++ G ++ S).drop 3 = G ++ S := by
    rw [List.append_assoc, List.drop_left' hA]
  have htg : (G ++ S).take 2 = G := List.take_left' hG
  have hd5 : (A ++ G ++ S).drop 5 = S := by
    rw [List.drop_left' (by simp [hA, hG] : (A ++ G).length = 5)]
  have htS : S.take 4 = S := by
    rw [← hS, List.take_length]
  have harea : isValidArea a m = true := by
    rw [isValidArea, if_neg (by omega), if_neg ha3, if_neg (by omega)]
    by_cases hm : m = SsnRuleMode.pre2011
    · obtain ⟨hr1, hr2⟩ := hpre hm
      rw [if_pos hm, if_neg hr1, if_neg (by omega)]
    · rw [if_neg hm]
  rw [ssnRuleChecks,
    if_neg (show ¬((false : Bool) = false ∧ (A ++ G ++ S).length ≠ 9) from
      by rintro ⟨-, hcon⟩; exact hcon hlen),
    if_neg (show ¬(3 ≤ (A ++ G ++ S).length ∧
        isValidArea (digitsToNat ((A ++ G ++ S).take 3)) m = false) from
      by rintro ⟨-, hcon⟩
         rw [hta, hAv, harea] at hcon
         exact Bool.false_ne_true hcon.symm),
    if_neg (show ¬(5 ≤ (A ++ G ++ S).length ∧
        digitsToNat (((A ++ G ++ S).drop 3).take 2) = 0) from
      by rintro ⟨-, hcon⟩
         rw [hda, htg, hGv] at hcon
         omega),
    if_neg (show ¬((A ++ G ++ S).length = 9 ∧
        (digitsToNat (((A ++ G ++ S).drop 5).take 4) = 0 ∨
          ((A ++ G ++ S).take 3 ++ '-' :: (((A ++ G ++ S).drop 3).take 2 ++ '-' ::
            (A ++ G ++ S).drop 5)) ∈ PUBLICLY_ADVERTISED)) from
      by rintro ⟨-, hcon | hcon⟩
         · rw [hd5, htS, hSv] at hcon
           omega
         · rw [hta, hda, htg, hd5] at hcon
           exact hnd hcon)]

/-- C6: whenever the generator returns a value in mode `pre2011` (resp.
`post2011`) with dashed output, for any injected rng stream of floats in
`[0, 1)` and any fuel bound on its retry loops, that value passes `isValidSsn`
under the matching rule mode. -/
theorem generator_valid (m : SsnRuleMode) (rng : Nat → ℚ) (hr : rngInRange rng) :
    ∀ fuel i v j,
      generateSsnFuel fuel (genModeOf m) GenFormat.dashed none rng i = some (v, j) →
      isValidSsn v true m false = true := by
  have hmode : ¬ genModeOf m = GenerateSsnMode.public := by
    cases m <;> simp [genModeOf]
  have hany : ¬ genModeOf m = GenerateSsnMode.any := by
    cases m <;> simp [genModeOf]
  have heff : ∀ r : ℚ, effectiveGenMode (genModeOf m) r = m := by
    intro r
    cases m <;> simp [genModeOf, effectiveGenMode]
  intro fuel
  induction fuel with
  | zero =>
    intro i v j h
    simp [generateSsnFuel] at h
  | succ fuel ih =>
    intro i v j h
    simp only [generateSsnFuel] at h
    rw [if_neg hmode, heff, if_neg hany] at h
    cases harea : generateAreaFuel (fuel + 1) m rng i with
    | none =>
      rw [harea] at h
      exact absurd h (by simp)
    | some p =>
      obtain ⟨area, i2⟩ := p
      rw [harea] at h
      simp only [] at h
      obtain ⟨n, rfl, hn1, hn2, hn3, hnpre⟩ := generateArea_sound hr _ _ _ _ harea
      obtain ⟨hg1, hg2⟩ := randomInt_bounds (hr i2).1 (hr i2).2 1 99 (by omega)
      obtain ⟨hs1, hs2⟩ := randomInt_bounds (hr (i2 + 1)).1 (hr (i2 + 1)).2 1 9999 (by omega)
      have hGdef : generateNonZeroFixedWidth (rng i2) 2 =
          padStart 2 (natRepr (randomInt (rng i2) 1 99)) := by
        rw [generateNonZeroFixedWidth, if_pos rfl]
      have hSdef : generateNonZeroFixedWidth (rng (i2 + 1)) 4 =
          padStart 4 (natRepr (randomInt (rng (i2 + 1)) 1 9999)) := by
        rw [generateNonZeroFixedWidth, if_neg (by omega)]
      rw [hGdef, hSdef] at h
      set g := randomInt (rng i2) 1 99 with hgdef
      set s := randomInt (rng (i2 + 1)) 1 9999 with hsdef
      obtain ⟨hAl, hAd, hAv⟩ := padRepr_spec 3 n (by omega) (by omega)
      obtain ⟨hGl, hGd, hGv⟩ := padRepr_spec 2 g (by omega) (by omega)
      obtain ⟨hSl, hSd, hSv⟩ := padRepr_spec 4 s (by omega) (by omega)
      by_cases hmem : (pad3 n ++ '-' :: (padStart 2 (natRepr g) ++ '-' ::
          padStart 4 (natRepr s))) ∈ PUBLICLY_ADVERTISED
      · rw [if_pos hmem] at h
        exact ih _ _ _ h
      · rw [if_neg hmem] at h
        have hform : formatOut GenFormat.dashed (pad3 n ++ '-' ::
            (padStart 2 (natRepr g) ++ '-' :: padStart 4 (natRepr s))) =
            pad3 n ++ '-' :: (padStart 2 (natRepr g) ++ '-' :: padStart 4 (natRepr s)) := by
          rw [formatOut, if_neg (by decide)]
        rw [hform] at h
        simp only [Option.some.injEq, Prod.mk.injEq] at h
        rw [← h.1]
        exact isValidSsn_generated (pad3 n) (padStart 2 (natRepr g))
          (padStart 4 (natRepr s)) m n g s hAl hGl hSl hAd hGd hSd hAv hGv hSv
          hn1 hn2 hn3 hnpre hg1 hs1 hmem

/-- Witness for C6: with the constant-zero rng, fuel 1 and mode pre2011 the
generator returns "001-01-0001", which validates under `pre2011` rules. -/
theorem generator_valid_witness :
    isValidSsn ("001-01-0001".toList) true SsnRuleMode.pre2011 false = true :=
  generator_valid SsnRuleMode.pre2011 (fun _ => 0)
    (fun _ => ⟨le_refl 0, by norm_num⟩) 1 0 ("001-01-0001".toList) 3
    generateSsnFuel_zero

/-! ## The rejection-sampling loop has no iteration cap (C8) -/

theorem randomInt_badRng (i : Nat) : randomInt (badRng i) 1 899 = 666 := by
  rw [randomInt, badRng]
  have h1 : (((899 : Nat) : ℚ) - ((1 : Nat) : ℚ) + 1) = 899 := by
    norm_num
  rw [h1]
  have h2 : (665 : ℚ) / 899 * 899 = 665 := by
    norm_num
  rw [h2]
  have h3 : ⌊(665 : ℚ)⌋ = 665 := by
    norm_num
  rw [h3]
  rfl

theorem generateArea_diverges_generic (rng : Nat → ℚ)
    (h666 : ∀ i, randomInt (rng i) 1 899 = 666) :
    ∀ fuel i, generateAreaFuel fuel SsnRuleMode.pre2011 rng i = none := by
  intro fuel
  induction fuel with
  | zero => intro i; rfl
  | succ fuel ih =>
    intro i
    simp only [generateAreaFuel, h666]
    rw [if_pos trivial]
    exact ih (i + 1)

theorem generateSsn_diverges_generic (rng : Nat → ℚ)
    (h666 : ∀ i, randomInt (rng i) 1 899 = 666) :
    generateSsnDiverges GenerateSsnMode.pre2011 rng := by
  intro fuel i
  cases fuel with
  | zero => rfl
  | succ fuel =>
    simp only [generateSsnFuel]
    rw [if_neg (by decide)]
    simp only [effectiveGenMode]
    rw [if_neg (by decide), generateArea_diverges_generic rng h666 (fuel + 1) i]

theorem generateSsn_badRng_diverges :
    generateSsnDiverges GenerateSsnMode.pre2011 badRng :=
  generateSsn_diverges_generic badRng randomInt_badRng

/-- Counterexample for C8 as stated: the injected rng that constantly returns
665/899 (a legal float in `[0, 1)`, always mapped to area 666) makes
`generateSsn` retry forever — it returns within no fuel bound, so there is no
iteration cap and no cap-exceeded failure report. -/
theorem generator_no_cap_counterexample :
    rngInRange badRng ∧ generateSsnDiverges GenerateSsnMode.pre2011 badRng :=
  ⟨fun _ => ⟨by rw [badRng]; norm_num, by rw [badRng]; norm_num⟩,
   generateSsn_badRng_diverges⟩

/-- C8 (amended): the rejection sampling never silently returns a denylisted
value — in any non-public mode with dashed output, whatever the rng and fuel,
a returned value is not publicly advertised.  (Termination, however, is not
guaranteed: the loop is uncapped, see the counterexample.) -/
theorem generator_never_denylisted (mode : GenerateSsnMode) (rng : Nat → ℚ)
    (hmode : mode ≠ GenerateSsnMode.public) :
    ∀ fuel i v j,
      generateSsnFuel fuel mode GenFormat.dashed none rng i = some (v, j) →
      v ∉ PUBLICLY_ADVERTISED := by
  intro fuel
  induction fuel with
  | zero =>
    intro i v j h
    simp [generateSsnFuel] at h
  | succ fuel ih =>
    intro i v j h
    simp only [generateSsnFuel] at h
    rw [if_neg hmode] at h
    cases harea : generateAreaFuel (fuel + 1) (effectiveGenMode mode (rng i)) rng
        (if mode = GenerateSsnMode.any then i + 1 else i) with
    | none =>
      rw [harea] at h
      exact absurd h (by simp)
    | some p =>
      obtain ⟨area, i2⟩ := p
      rw [harea] at h
      simp only [] at h
      by_cases hmem : (area ++ '-' :: (generateNonZeroFixedWidth (rng i2) 2 ++ '-' ::
          generateNonZeroFixedWidth (rng (i2 + 1)) 4)) ∈ PUBLICLY_ADVERTISED
      · rw [if_pos hmem] at h
        exact ih _ _ _ h
      · rw [if_neg hmem] at h
        have hform : formatOut GenFormat.dashed (area ++ '-' ::
            (generateNonZeroFixedWidth (rng i2) 2 ++ '-' ::
              generateNonZeroFixedWidth (rng (i2 + 1)) 4)) =
            area ++ '-' :: (generateNonZeroFixedWidth (rng i2) 2 ++ '-' ::
              generateNonZeroFixedWidth (rng (i2 + 1)) 4) := by
          rw [formatOut, if_neg (by decide)]
        rw [hform] at h
        simp only [Option.some.injEq, Prod.mk.injEq] at h
        rw [← h.1]
        exact hmem

/-- Witness for C8 (amended): the value returned with the constant-zero rng is
not one of the publicly advertised SSNs. -/
theorem generator_never_denylisted_witness :
    ("001-01-0001".toList) ∉ PUBLICLY_ADVERTISED :=
  generator_never_denylisted GenerateSsnMode.pre2011 (fun _ => 0) (by decide)
    1 0 ("001-01-0001".toList) 3 generateSsnFuel_zero
